import Mathlib

/-!
A shallow embedding of the image-compositing core of the virtual fitting
room application (src/src/app.py).  PIL images are modelled as finite
rasters with a total pixel function; the helper overlay_image (lines
29-37: copy the background, convert the overlay to RGBA, paste with the
overlay's alpha channel as the mask), the interactive pipeline (lines
130-147: truncating resize, centred position with slider offsets,
composite) and load_image's error handling (lines 18-27: only
FileNotFoundError is caught) are translated from the source.  Python
floats are modelled as rationals; every concrete scale used below is
exactly representable as a double, so the rational computation agrees
with the float one.  PIL's masked paste blends each channel with the
MULDIV255 rounding of libImaging's Paste.c; the Lanczos resampling
kernel of Image.resize is left as a parameter (the claims never depend
on resampled pixel values, and PIL returns a pixel-identical copy when
the target size equals the source size, which is modelled exactly).
A small heap model captures the aliasing facts: Image.copy allocates a
fresh cell and Image.paste mutates in place.
-/

namespace VirtualFitting

/-- One RGBA pixel; channels are naturals, and an in-range pixel has
every channel at most 255 (see Pixel.valid). -/
structure Pixel where
  r : ℕ
  g : ℕ
  b : ℕ
  a : ℕ
  deriving DecidableEq, Repr

/-- A raster: width, height, whether the mode carries an alpha channel
(RGBA vs RGB), and a total pixel function (only values at coordinates
inside width x height are meaningful). -/
@[ext]
structure Image where
  width : ℕ
  height : ℕ
  hasAlpha : Bool
  px : ℕ → ℕ → Pixel

/-- Every channel of the pixel is a legal 8-bit value. -/
def Pixel.valid (p : Pixel) : Prop :=
  p.r ≤ 255 ∧ p.g ≤ 255 ∧ p.b ≤ 255 ∧ p.a ≤ 255

instance (p : Pixel) : Decidable p.valid :=
  inferInstanceAs (Decidable (_ ∧ _ ∧ _ ∧ _))

/-- Every in-range pixel of the image is a legal 8-bit RGBA value. -/
def Image.valid (img : Image) : Prop :=
  ∀ x y, x < img.width → y < img.height → (img.px x y).valid

/-- The alpha channel is 255 at every in-range pixel (a fully opaque
overlay). -/
def Image.alphaAll255 (img : Image) : Prop :=
  ∀ x y, x < img.width → y < img.height → (img.px x y).a = 255

/-- The alpha channel is 0 at every in-range pixel (a fully transparent
overlay). -/
def Image.alphaAll0 (img : Image) : Prop :=
  ∀ x y, x < img.width → y < img.height → (img.px x y).a = 0

/-- MULDIV255 of libImaging: (a * b + 128) divided by 255 with rounding,
computed as in the C macro SHIFTFORDIV255(a*b+128). -/
def muldiv255 (a b : ℕ) : ℕ :=
  ((a * b + 128) / 256 + (a * b + 128)) / 256

/-- The BLEND macro of libImaging's Paste.c: destination channel d and
source channel s blended under mask value m. -/
def blend (m d s : ℕ) : ℕ :=
  muldiv255 d (255 - m) + muldiv255 s m

/-- Blend a source pixel over a destination pixel using the source's
alpha channel as the mask, channel by channel (PIL's masked paste with
an RGBA mask image). -/
def blendPixel (s d : Pixel) : Pixel :=
  ⟨blend s.a d.r s.r, blend s.a d.g s.g, blend s.a d.b s.b, blend s.a d.a s.a⟩

/-- Line 34, overlay_img.convert("RGBA"): a new image in RGBA mode; if
the source had no alpha channel every pixel becomes fully opaque, and a
source already in RGBA mode is copied pixel for pixel. -/
def convertRGBA (img : Image) : Image :=
  if img.hasAlpha then img
  else { img with hasAlpha := true, px := fun x y => { img.px x y with a := 255 } }

/-- Destination coordinate (x, y) is covered by the source pasted at
position pos: the corresponding source coordinate lies inside the
source raster. -/
def covered (src : Image) (pos : ℤ × ℤ) (x y : ℕ) : Prop :=
  0 ≤ (x : ℤ) - pos.1 ∧ (x : ℤ) - pos.1 < (src.width : ℤ) ∧
    0 ≤ (y : ℤ) - pos.2 ∧ (y : ℤ) - pos.2 < (src.height : ℤ)

instance (src : Image) (pos : ℤ × ℤ) (x y : ℕ) : Decidable (covered src pos x y) :=
  inferInstanceAs (Decidable (_ ∧ _ ∧ _ ∧ _))

/-- Line 36, background.paste(overlay_img, position, overlay_img): each
destination pixel inside the canvas and covered by the source is blended
under the source's alpha mask; everything else (including the parts of
the source falling outside the canvas, also at negative positions) is
silently clipped.  The destination's size and mode are unchanged. -/
def paste (dst src : Image) (pos : ℤ × ℤ) : Image where
  width := dst.width
  height := dst.height
  hasAlpha := dst.hasAlpha
  px := fun x y =>
    if x < dst.width ∧ y < dst.height ∧ covered src pos x y then
      blendPixel (src.px ((x : ℤ) - pos.1).toNat ((y : ℤ) - pos.2).toNat) (dst.px x y)
    else dst.px x y

/-- Lines 29-37, overlay_image(background_img, overlay_img, position):
copy the background, convert the overlay to RGBA, paste it with its
alpha channel as the mask, return the pasted copy. -/
def overlay_image (background_img overlay_img : Image) (position : ℤ × ℤ) : Image :=
  let background := background_img
  let ov := convertRGBA overlay_img
  paste background ov position

/-- Python's int() applied to a real value: truncation toward zero. -/
def pyInt (q : ℚ) : ℤ :=
  if 0 ≤ q then ⌊q⌋ else -⌊-q⌋

/-- The type of a resampling kernel: source image, target width, target
height, target coordinate, resulting pixel.  The Lanczos kernel of PIL
is one such function; no claim depends on which one is used. -/
abbrev Resample := Image → ℕ → ℕ → ℕ → ℕ → Pixel

/-- Image.resize((w, h), LANCZOS): the target size with resampled
content; PIL returns a pixel-identical copy when the target size equals
the source size (Image.resize short-circuits to self.copy()), and the
mode is preserved. -/
def resize (resample : Resample) (img : Image) (w h : ℕ) : Image :=
  if w = img.width ∧ h = img.height then img
  else { width := w, height := h, hasAlpha := img.hasAlpha, px := fun x y => resample img w h x y }

/-- Line 138, clothing_width = int(clothing_image.width * scale). -/
def clothingWidth (clothing : Image) (scale : ℚ) : ℕ :=
  (pyInt ((clothing.width : ℚ) * scale)).toNat

/-- Line 139, clothing_height = int(clothing_image.height * scale). -/
def clothingHeight (clothing : Image) (scale : ℚ) : ℕ :=
  (pyInt ((clothing.height : ℚ) * scale)).toNat

/-- Line 140, clothing_image.resize((clothing_width, clothing_height), LANCZOS). -/
def resizedClothing (resample : Resample) (clothing : Image) (scale : ℚ) : Image :=
  resize resample clothing (clothingWidth clothing scale) (clothingHeight clothing scale)

/-- Line 143, position_x = (user_width - clothing_width) // 2 + x_offset
(Python floor division on ints). -/
def position_x (user_width clothing_width : ℕ) (x_offset : ℤ) : ℤ :=
  Int.fdiv ((user_width : ℤ) - (clothing_width : ℤ)) 2 + x_offset

/-- Line 144, position_y = (user_height - clothing_height) // 2 + y_offset. -/
def position_y (user_height clothing_height : ℕ) (y_offset : ℤ) : ℤ :=
  Int.fdiv ((user_height : ℤ) - (clothing_height : ℤ)) 2 + y_offset

/-- Lines 137-147: resize the clothing by the scale slider, centre it on
the user photo shifted by the offset sliders, and composite. -/
def final_image (resample : Resample) (user clothing : Image) (scale : ℚ)
    (x_offset y_offset : ℤ) : Image :=
  overlay_image user (resizedClothing resample clothing scale)
    (position_x user.width (clothingWidth clothing scale) x_offset,
     position_y user.height (clothingHeight clothing scale) y_offset)

/-! Heap model: PIL images are heap objects; Image.copy() allocates a
fresh one and Image.paste mutates its receiver in place.  A heap is an
allocation counter together with the contents of every cell; addresses
below the counter are the live objects. -/

/-- A heap of image objects: next fresh address and cell contents. -/
structure Heap where
  next : ℕ
  mem : ℕ → Image

/-- Overwrite the object at an address in place (what Image.paste does
to its receiver). -/
def Heap.write (h : Heap) (addr : ℕ) (img : Image) : Heap :=
  ⟨h.next, fun n => if n = addr then img else h.mem n⟩

/-- Allocate a fresh object holding the given raster (what Image.copy
does); returns its address and the new heap. -/
def Heap.alloc (h : Heap) (img : Image) : ℕ × Heap :=
  (h.next, ⟨h.next + 1, fun n => if n = h.next then img else h.mem n⟩)

/-- Lines 29-37 of overlay_image, read operationally against the heap:
line 32 allocates the copy of the background, line 34 rebinds the local
overlay name to a fresh converted raster (it never escapes, so it is
kept as a value), line 36 mutates the copy in place, line 37 returns the
copy's address. -/
def overlayImageOp (h : Heap) (bgAddr ovAddr : ℕ) (position : ℤ × ℤ) : ℕ × Heap :=
  let alloced := h.alloc (h.mem bgAddr)
  let background := alloced.1
  let h1 := alloced.2
  let ov := convertRGBA (h1.mem ovAddr)
  let h2 := h1.write background (paste (h1.mem background) ov position)
  (background, h2)

/-! Model of load_image (lines 18-27) and the fitting area
(lines 124-149).  A path on disk is missing, holds undecodable bytes, or
holds a decodable image; PIL's Image.open raises FileNotFoundError on a
missing path and UnidentifiedImageError on undecodable bytes, and
load_image's try/except catches only FileNotFoundError. -/

/-- What the file system holds at a path. -/
inductive FsEntry where
  | missing
  | undecodable
  | image (img : Image)

/-- The three observable outcomes of calling load_image: an image is
returned; st.error is shown and None is returned; or an exception
escapes the function. -/
inductive LoadOutcome where
  | ok (img : Image)
  | errored (msg : String)
  | exn (name : String)

/-- True exactly on the ok outcome (how Python's truthiness test on line
128 sees the value: an Image is truthy, None is falsy). -/
def LoadOutcome.isLoaded : LoadOutcome → Bool
  | .ok _ => true
  | _ => false

/-- Lines 18-27, load_image(image_path, size=None): Image.open the path,
optionally ImageOps.fit it to a size, return it; a FileNotFoundError is
caught and turned into st.error plus a None return; any other exception
(in particular UnidentifiedImageError for undecodable bytes) escapes.
The resampling of ImageOps.fit is abstracted by the fit parameter, as
every call in the fitting pipeline passes no size. -/
def load_image (fit : Image → ℕ × ℕ → Image) (fs : String → FsEntry)
    (image_path : String) (size : Option (ℕ × ℕ)) : LoadOutcome :=
  match fs image_path with
  | .image img =>
      match size with
      | some s => .ok (fit img s)
      | none => .ok img
  | .missing => .errored ("Error: Image not found at " ++ image_path)
  | .undecodable => .exn "UnidentifiedImageError"

/-- Lines 124-149: load the user photo and the selected clothing image,
and only when both loads returned an image (the guard on line 128)
compute the composite; an exception raised by either load propagates and
aborts the script.  Returns .error on an escaped exception, .ok none
when the render is skipped, .ok (some result) otherwise. -/
def fittingArea (resample : Resample) (fit : Image → ℕ × ℕ → Image)
    (fs : String → FsEntry) (userPath clothingPath : String) (scale : ℚ)
    (x_offset y_offset : ℤ) : Except String (Option Image) :=
  match load_image fit fs userPath none with
  | .exn e => .error e
  | user_image =>
      match load_image fit fs clothingPath none with
      | .exn e => .error e
      | clothing_image =>
          match user_image, clothing_image with
          | .ok u, .ok c => .ok (some (final_image resample u c scale x_offset y_offset))
          | _, _ => .ok none

/-! Basic lemmas about the embedded operations. -/

/-- Truncation of a nonnegative rational is its floor. -/
theorem pyInt_of_nonneg (q : ℚ) (hq : 0 ≤ q) : pyInt q = ⌊q⌋ := by
  rw [pyInt, if_pos hq]

/-- Resize always delivers the requested width. -/
theorem resize_width (resample : Resample) (img : Image) (w h : ℕ) :
    (resize resample img w h).width = w := by
  rw [resize]; split
  · rename_i hc; exact hc.1.symm
  · rfl

/-- Resize always delivers the requested height. -/
theorem resize_height (resample : Resample) (img : Image) (w h : ℕ) :
    (resize resample img w h).height = h := by
  rw [resize]; split
  · rename_i hc; exact hc.2.symm
  · rfl

/-- The pipeline's resized clothing image has width int(width * scale). -/
theorem resizedClothing_width (resample : Resample) (clothing : Image) (scale : ℚ) :
    (resizedClothing resample clothing scale).width = clothingWidth clothing scale := by
  rw [resizedClothing, resize_width]

/-- The pipeline's resized clothing image has height int(height * scale). -/
theorem resizedClothing_height (resample : Resample) (clothing : Image) (scale : ℚ) :
    (resizedClothing resample clothing scale).height = clothingHeight clothing scale := by
  rw [resizedClothing, resize_height]

/-- Blending under a zero factor contributes nothing. -/
theorem muldiv255_zero (d : ℕ) : muldiv255 d 0 = 0 := by
  norm_num [muldiv255]

set_option maxRecDepth 8000 in
/-- MULDIV255 by 255 is the identity on 8-bit values. -/
theorem muldiv255_full (s : Fin 256) : muldiv255 s.val 255 = s.val := by
  revert s; decide

/-- A fully opaque mask copies the source channel. -/
theorem blend_full (d s : ℕ) (hs : s ≤ 255) : blend 255 d s = s := by
  have h1 : muldiv255 s 255 = s := muldiv255_full ⟨s, by omega⟩
  simp [blend, Nat.sub_self, muldiv255_zero, h1]

/-- A fully transparent mask keeps the destination channel. -/
theorem blend_none (d s : ℕ) (hd : d ≤ 255) : blend 0 d s = d := by
  have h1 : muldiv255 d 255 = d := muldiv255_full ⟨d, by omega⟩
  simp [blend, muldiv255_zero, h1]

/-- Blending a valid fully opaque pixel replaces the destination pixel. -/
theorem blendPixel_full (s d : Pixel) (hs : s.valid) (ha : s.a = 255) :
    blendPixel s d = s := by
  obtain ⟨sr, sg, sb, sa⟩ := s
  obtain ⟨h1, h2, h3, h4⟩ := hs
  change sa = 255 at ha
  subst ha
  simp only [blendPixel, Pixel.mk.injEq]
  exact ⟨blend_full _ _ h1, blend_full _ _ h2, blend_full _ _ h3, blend_full _ _ h4⟩

/-- Blending a fully transparent pixel over a valid destination pixel
leaves it unchanged. -/
theorem blendPixel_none (s d : Pixel) (hd : d.valid) (ha : s.a = 0) :
    blendPixel s d = d := by
  obtain ⟨dr, dg, db, da⟩ := d
  obtain ⟨h1, h2, h3, h4⟩ := hd
  simp only [blendPixel, ha, Pixel.mk.injEq]
  exact ⟨blend_none _ _ h1, blend_none _ _ h2, blend_none _ _ h3, blend_none _ _ h4⟩

/-- Unfolding overlay_image to its copy-convert-paste body. -/
theorem overlay_eq_paste (background_img overlay_img : Image) (position : ℤ × ℤ) :
    overlay_image background_img overlay_img position
      = paste background_img (convertRGBA overlay_img) position := rfl

/-- The pasted pixel at an in-canvas covered coordinate. -/
theorem paste_px_in (dst src : Image) (pos : ℤ × ℤ) (x y : ℕ)
    (hx : x < dst.width) (hy : y < dst.height) (hc : covered src pos x y) :
    (paste dst src pos).px x y
      = blendPixel (src.px ((x : ℤ) - pos.1).toNat ((y : ℤ) - pos.2).toNat) (dst.px x y) := by
  simp only [paste]
  rw [if_pos ⟨hx, hy, hc⟩]

/-- The pasted pixel anywhere else equals the destination pixel. -/
theorem paste_px_out (dst src : Image) (pos : ℤ × ℤ) (x y : ℕ)
    (hc : ¬(x < dst.width ∧ y < dst.height ∧ covered src pos x y)) :
    (paste dst src pos).px x y = dst.px x y := by
  simp only [paste]
  rw [if_neg hc]

/-- Conversion to RGBA keeps the width. -/
theorem convertRGBA_width (img : Image) : (convertRGBA img).width = img.width := by
  rw [convertRGBA]; split <;> rfl

/-- Conversion to RGBA keeps the height. -/
theorem convertRGBA_height (img : Image) : (convertRGBA img).height = img.height := by
  rw [convertRGBA]; split <;> rfl

/-- Converting an image already carrying alpha is the identity. -/
theorem convertRGBA_of_alpha (img : Image) (h : img.hasAlpha = true) :
    convertRGBA img = img := by
  simp [convertRGBA, h]

/-- The call returns the address of the fresh copy. -/
theorem overlayImageOp_fst (h : Heap) (bgAddr ovAddr : ℕ) (pos : ℤ × ℤ) :
    (overlayImageOp h bgAddr ovAddr pos).1 = h.next := rfl

/-- The call bumps the allocation counter by one (the copy). -/
theorem overlayImageOp_next (h : Heap) (bgAddr ovAddr : ℕ) (pos : ℤ × ℤ) :
    (overlayImageOp h bgAddr ovAddr pos).2.next = h.next + 1 := rfl

/-- Every previously existing cell is untouched by the call. -/
theorem overlayImageOp_mem_old (h : Heap) (bgAddr ovAddr : ℕ) (pos : ℤ × ℤ)
    (a : ℕ) (ha : a ≠ h.next) :
    (overlayImageOp h bgAddr ovAddr pos).2.mem a = h.mem a := by
  simp [overlayImageOp, Heap.write, Heap.alloc, ha]

/-- The fresh cell holds exactly the value-level composite of the two
argument images. -/
theorem overlayImageOp_mem_new (h : Heap) (bgAddr ovAddr : ℕ) (pos : ℤ × ℤ)
    (hov : ovAddr ≠ h.next) :
    (overlayImageOp h bgAddr ovAddr pos).2.mem h.next
      = overlay_image (h.mem bgAddr) (h.mem ovAddr) pos := by
  simp [overlayImageOp, Heap.write, Heap.alloc, overlay_image, hov]

/-! Concrete fixtures used by the counterexamples and the witnesses. -/

/-- A degenerate resampling kernel (any kernel works in every theorem
quantifying over one; the witnesses pick this one). -/
def trivResample : Resample := fun _ _ _ _ _ => ⟨0, 0, 0, 0⟩

/-- A degenerate ImageOps.fit stand-in for the witnesses. -/
def trivFit : Image → ℕ × ℕ → Image := fun img _ => img

/-- A sample base pixel. -/
def pxA : Pixel := ⟨10, 20, 30, 255⟩

/-- A sample opaque overlay pixel. -/
def pxB : Pixel := ⟨1, 2, 3, 255⟩

/-- A 2 x 2 RGB base photo. -/
def baseW : Image := ⟨2, 2, false, fun _ _ => pxA⟩

/-- A 1 x 1 fully opaque RGBA overlay. -/
def ovOpaqueW : Image := ⟨1, 1, true, fun _ _ => pxB⟩

/-- A 1 x 1 fully transparent RGBA overlay. -/
def ovClearW : Image := ⟨1, 1, true, fun _ _ => ⟨7, 8, 9, 0⟩⟩

/-- A 1 x 1 RGB (no alpha) overlay. -/
def ovRGBW : Image := ⟨1, 1, false, fun _ _ => ⟨1, 2, 3, 0⟩⟩

/-- A 199 x 199 overlay: scaling it by 0.5 separates int() from round(). -/
def ov199 : Image := ⟨199, 199, true, fun _ _ => pxB⟩

/-- The 200 x 200 overlay of the spec's scenarios. -/
def ov200 : Image := ⟨200, 200, true, fun _ _ => pxB⟩

/-- A 5 x 5 overlay: the minimum scale 0.1 truncates it to width 0. -/
def ov5 : Image := ⟨5, 5, true, fun _ _ => pxB⟩

/-- A 3 x 1 overlay whose rightmost column never lands on the 2 x 2
canvas when pasted at the origin. -/
def ovEdgeA : Image := ⟨3, 1, true, fun x _ => if x = 2 then ⟨9, 9, 9, 9⟩ else pxB⟩

/-- Same as ovEdgeA except at the clipped rightmost column. -/
def ovEdgeB : Image := ⟨3, 1, true, fun x _ => if x = 2 then ⟨4, 4, 4, 4⟩ else pxB⟩

/-- A 400 x 600 base photo for the centring scenario. -/
def base400 : Image := ⟨400, 600, false, fun _ _ => pxA⟩

/-- A two-object heap: the base photo at address 0, the overlay at 1. -/
def heapW : Heap := ⟨2, fun n => if n = 0 then baseW else ovOpaqueW⟩

/-- A file system on which every path holds undecodable bytes. -/
def fsUndecW : String → FsEntry := fun _ => FsEntry.undecodable

/-- A file system missing the user photo but holding the clothing image. -/
def fsMissW : String → FsEntry := fun p => if p = "u.png" then FsEntry.missing else FsEntry.image baseW

/-! The claims. -/

/-- C2: for every base image, overlay image, paste position, scale and
offsets, both the composite operation overlay_image and the full
pipeline final_image return an image with exactly the base image's
width and height. -/
theorem c2_output_dims (resample : Resample) (user clothing : Image) (scale : ℚ)
    (x_offset y_offset : ℤ) (pos : ℤ × ℤ) :
    ((overlay_image user clothing pos).width = user.width
      ∧ (overlay_image user clothing pos).height = user.height)
    ∧ ((final_image resample user clothing scale x_offset y_offset).width = user.width
      ∧ (final_image resample user clothing scale x_offset y_offset).height = user.height) :=
  ⟨⟨rfl, rfl⟩, ⟨rfl, rfl⟩⟩

/-- C1 counterexample: the claim says the overlay is resized to
(round(w * s), round(h * s)); on a 199 x 199 overlay at the in-range
scale 0.5 (both exactly representable as doubles) the code computes
int(199 * 0.5) = 99 while round(99.5) = 100, so the claimed dimension is
wrong at this input.  The resized width does not depend on the
resampling kernel. -/
theorem c1_round_counterexample :
    (resizedClothing trivResample ov199 (1 / 2)).width = 99
    ∧ round ((ov199.width : ℚ) * (1 / 2)) = 100
    ∧ ((resizedClothing trivResample ov199 (1 / 2)).width : ℤ)
        ≠ round ((ov199.width : ℚ) * (1 / 2)) := by
  have hw : (resizedClothing trivResample ov199 (1 / 2)).width = 99 := by
    rw [resizedClothing_width, clothingWidth]
    rw [show pyInt ((ov199.width : ℚ) * (1 / 2)) = 99 by norm_num [pyInt, ov199]]
    decide
  have hr : round ((ov199.width : ℚ) * (1 / 2)) = 100 := by
    rw [round_eq]; norm_num [ov199]
  refine ⟨hw, hr, ?_⟩
  rw [hw, hr]; decide

/-- C1 amended: the pipeline resizes the overlay to
(int(w * s), int(h * s)), truncation toward zero (equal to the floor for
the nonnegative products arising from the slider range); the spec's own
scenario is unaffected: a 200 x 200 overlay at scale 0.5 is resized to
100 x 100. -/
theorem c1_resize_truncates (resample : Resample) (clothing : Image) (scale : ℚ)
    (hs : 0 ≤ scale) :
    (resizedClothing resample clothing scale).width = (⌊(clothing.width : ℚ) * scale⌋).toNat
    ∧ (resizedClothing resample clothing scale).height = (⌊(clothing.height : ℚ) * scale⌋).toNat
    ∧ (resizedClothing resample ov200 (1 / 2)).width = 100
    ∧ (resizedClothing resample ov200 (1 / 2)).height = 100 := by
  refine ⟨?_, ?_, ?_, ?_⟩
  · rw [resizedClothing_width, clothingWidth,
      pyInt_of_nonneg _ (mul_nonneg (by positivity) hs)]
  · rw [resizedClothing_height, clothingHeight,
      pyInt_of_nonneg _ (mul_nonneg (by positivity) hs)]
  · rw [resizedClothing_width, clothingWidth]
    rw [show pyInt ((ov200.width : ℚ) * (1 / 2)) = 100 by norm_num [pyInt, ov200]]
    decide
  · rw [resizedClothing_height, clothingHeight]
    rw [show pyInt ((ov200.height : ℚ) * (1 / 2)) = 100 by norm_num [pyInt, ov200]]
    decide

/-- C1 amended, witnessed at the kernel trivResample, the 200 x 200
overlay and scale 0.5. -/
theorem c1_truncates_witness :
    (resizedClothing trivResample ov200 (1 / 2)).width = (⌊(ov200.width : ℚ) * (1 / 2)⌋).toNat
    ∧ (resizedClothing trivResample ov200 (1 / 2)).height = (⌊(ov200.height : ℚ) * (1 / 2)⌋).toNat
    ∧ (resizedClothing trivResample ov200 (1 / 2)).width = 100
    ∧ (resizedClothing trivResample ov200 (1 / 2)).height = 100 :=
  c1_resize_truncates trivResample ov200 (1 / 2) (by norm_num)

/-- C10: the resized dimensions are truncations, so a product
w * scale < 1 truncates the width to 0 (in particular a 5-pixel-wide
overlay at the minimum scale 0.1); pasting the resulting zero-width
overlay covers no destination pixel, and the composite equals the
(copied) base image unchanged.  Every operation involved is total, so no
error is raised. -/
theorem c10_zero_width_noop (resample : Resample) (user clothing : Image) (scale : ℚ)
    (x_offset y_offset : ℤ) (hs : 0 ≤ scale) (hw : (clothing.width : ℚ) * scale < 1) :
    (resizedClothing resample clothing scale).width = 0
    ∧ final_image resample user clothing scale x_offset y_offset = user
    ∧ (resizedClothing resample ov5 (1 / 10)).width = 0 := by
  have hprod : (0 : ℚ) ≤ (clothing.width : ℚ) * scale := mul_nonneg (by positivity) hs
  have hcw : clothingWidth clothing scale = 0 := by
    rw [clothingWidth, pyInt_of_nonneg _ hprod, Int.floor_eq_zero_iff.2 ⟨hprod, hw⟩]
    rfl
  have hrw : (resizedClothing resample clothing scale).width = 0 := by
    rw [resizedClothing_width, hcw]
  refine ⟨hrw, ?_, ?_⟩
  · rw [final_image, overlay_eq_paste]
    refine Image.ext rfl rfl rfl ?_
    funext x y
    refine paste_px_out _ _ _ _ _ ?_
    rintro ⟨-, -, hc⟩
    have h0 : ((convertRGBA (resizedClothing resample clothing scale)).width : ℤ) = 0 := by
      rw [convertRGBA_width, hrw]; rfl
    have h1 := hc.1
    have h2 := hc.2.1
    rw [h0] at h2
    omega
  · rw [resizedClothing_width, clothingWidth]
    rw [show pyInt ((ov5.width : ℚ) * (1 / 10)) = 0 by
      rw [pyInt_of_nonneg _ (by norm_num [ov5])]
      rw [Int.floor_eq_zero_iff.2 ⟨by norm_num [ov5], by norm_num [ov5]⟩]]
    rfl

/-- C10, witnessed at the 5 x 5 overlay and scale 0.1 on the 2 x 2 base
photo. -/
theorem c10_zero_width_witness :
    (resizedClothing trivResample ov5 (1 / 10)).width = 0
    ∧ final_image trivResample baseW ov5 (1 / 10) 3 (-7) = baseW
    ∧ (resizedClothing trivResample ov5 (1 / 10)).width = 0 :=
  c10_zero_width_noop trivResample baseW ov5 (1 / 10) 3 (-7) (by norm_num)
    (by norm_num [ov5])

/-- C3: under the Paste.c blend dst*(1-a) + overlay*a, compositing an
overlay whose (normalized) alpha channel is everywhere 255 writes the
overlay's pixels over every covered in-bounds base pixel, and
compositing one whose alpha channel is everywhere 0 leaves every base
pixel unchanged (validity of the pixels read: 8-bit channels). -/
theorem c3_alpha_correct (bg ov : Image) (pos : ℤ × ℤ) :
    ((convertRGBA ov).valid → (convertRGBA ov).alphaAll255 →
      ∀ x y, x < bg.width → y < bg.height → covered (convertRGBA ov) pos x y →
        (overlay_image bg ov pos).px x y
          = (convertRGBA ov).px ((x : ℤ) - pos.1).toNat ((y : ℤ) - pos.2).toNat)
    ∧ (bg.valid → (convertRGBA ov).alphaAll0 →
      ∀ x y, (overlay_image bg ov pos).px x y = bg.px x y) := by
  constructor
  · intro hval hop x y hx hy hc
    obtain ⟨h1, h2, h3, h4⟩ := hc
    have hsx : ((x : ℤ) - pos.1).toNat < (convertRGBA ov).width := by omega
    have hsy : ((y : ℤ) - pos.2).toNat < (convertRGBA ov).height := by omega
    rw [overlay_eq_paste, paste_px_in bg _ pos x y hx hy ⟨h1, h2, h3, h4⟩]
    exact blendPixel_full _ _ (hval _ _ hsx hsy) (hop _ _ hsx hsy)
  · intro hbg htr x y
    by_cases hcond : x < bg.width ∧ y < bg.height ∧ covered (convertRGBA ov) pos x y
    · obtain ⟨hx, hy, h1, h2, h3, h4⟩ := hcond
      have hsx : ((x : ℤ) - pos.1).toNat < (convertRGBA ov).width := by omega
      have hsy : ((y : ℤ) - pos.2).toNat < (convertRGBA ov).height := by omega
      rw [overlay_eq_paste, paste_px_in bg _ pos x y hx hy ⟨h1, h2, h3, h4⟩]
      exact blendPixel_none _ _ (hbg x y hx hy) (htr _ _ hsx hsy)
    · rw [overlay_eq_paste, paste_px_out bg _ pos x y hcond]

/-- C3, witnessed on a 2 x 2 base: the opaque 1 x 1 overlay replaces the
covered pixel, the transparent 1 x 1 overlay changes nothing. -/
theorem c3_alpha_witness :
    (overlay_image baseW ovOpaqueW (0, 0)).px 0 0 = (convertRGBA ovOpaqueW).px 0 0
    ∧ (overlay_image baseW ovClearW (0, 0)).px 1 1 = baseW.px 1 1 :=
  ⟨(c3_alpha_correct baseW ovOpaqueW (0, 0)).1
      (fun _ _ _ _ => (by decide : pxB.valid)) (fun _ _ _ _ => rfl)
      0 0 (by decide) (by decide) (by decide),
   (c3_alpha_correct baseW ovClearW (0, 0)).2
      (fun _ _ _ _ => (by decide : pxA.valid)) (fun _ _ _ _ => rfl) 1 1⟩

/-- C5: paste is total at every position (negative and beyond-canvas
offsets included); it never writes outside the base canvas, and changing
any overlay pixel that falls outside the canvas does not change the
result, i.e. clipped overlay pixels are silently discarded. -/
theorem c5_clipping (bg ov : Image) (pos : ℤ × ℤ) :
    ((overlay_image bg ov pos).width = bg.width
      ∧ (overlay_image bg ov pos).height = bg.height)
    ∧ (∀ x y, ¬(x < bg.width ∧ y < bg.height) →
        (overlay_image bg ov pos).px x y = bg.px x y)
    ∧ (∀ ov2 : Image, ov2.width = ov.width → ov2.height = ov.height →
        ov2.hasAlpha = ov.hasAlpha →
        (∀ x y : ℕ, x < bg.width → y < bg.height → covered (convertRGBA ov) pos x y →
          (convertRGBA ov2).px ((x : ℤ) - pos.1).toNat ((y : ℤ) - pos.2).toNat
            = (convertRGBA ov).px ((x : ℤ) - pos.1).toNat ((y : ℤ) - pos.2).toNat) →
        ∀ x y, (overlay_image bg ov2 pos).px x y = (overlay_image bg ov pos).px x y) := by
  refine ⟨⟨rfl, rfl⟩, ?_, ?_⟩
  · intro x y hxy
    rw [overlay_eq_paste]
    exact paste_px_out _ _ _ _ _ fun hcond => hxy ⟨hcond.1, hcond.2.1⟩
  · intro ov2 hw hh hal hagree x y
    have hcov : covered (convertRGBA ov2) pos x y ↔ covered (convertRGBA ov) pos x y := by
      rw [covered, covered, convertRGBA_width, convertRGBA_width,
        convertRGBA_height, convertRGBA_height, hw, hh]
    by_cases hcond : x < bg.width ∧ y < bg.height ∧ covered (convertRGBA ov) pos x y
    · obtain ⟨hx, hy, hc⟩ := hcond
      rw [overlay_eq_paste, overlay_eq_paste,
        paste_px_in bg _ pos x y hx hy (hcov.2 hc),
        paste_px_in bg _ pos x y hx hy hc, hagree x y hx hy hc]
    · have hcond2 : ¬(x < bg.width ∧ y < bg.height ∧ covered (convertRGBA ov2) pos x y) :=
        fun hc2 => hcond ⟨hc2.1, hc2.2.1, hcov.1 hc2.2.2⟩
      rw [overlay_eq_paste, overlay_eq_paste,
        paste_px_out bg _ pos x y hcond2, paste_px_out bg _ pos x y hcond]

/-- C5, witnessed with a 3 x 1 overlay pasted at the origin of the 2 x 2
base: the rightmost overlay column is clipped, so two overlays differing
only there composite identically, nothing outside the canvas changes,
and the output keeps the base dimensions. -/
theorem c5_clipping_witness :
    (overlay_image baseW ovEdgeA (0, 0)).width = 2
    ∧ (overlay_image baseW ovEdgeA (0, 0)).px 7 7 = baseW.px 7 7
    ∧ (overlay_image baseW ovEdgeB (0, 0)).px 1 0 = (overlay_image baseW ovEdgeA (0, 0)).px 1 0 :=
  ⟨(c5_clipping baseW ovEdgeA (0, 0)).1.1,
   (c5_clipping baseW ovEdgeA (0, 0)).2.1 7 7 (by decide),
   (c5_clipping baseW ovEdgeA (0, 0)).2.2 ovEdgeB rfl rfl rfl
     (by
       intro x y hx hy hc
       have hx2 : x < 2 := by simpa [baseW] using hx
       have hxn : ((x : ℤ) - (0, 0).1).toNat = x := by
         rw [show ((0, 0) : ℤ × ℤ).1 = 0 from rfl]; omega
       rw [hxn]
       show (if x = 2 then (⟨4, 4, 4, 4⟩ : Pixel) else pxB) = if x = 2 then ⟨9, 9, 9, 9⟩ else pxB
       rw [if_neg (by omega), if_neg (by omega)])
     1 0⟩

/-- C7: an overlay supplied without a per-pixel alpha channel is
normalized by convert("RGBA") to carry one that is 255 everywhere, so
the masked paste treats it as fully opaque: every covered in-bounds base
pixel receives the overlay's channels with alpha 255. -/
theorem c7_rgba_normalization (ov : Image) (hna : ov.hasAlpha = false) :
    (convertRGBA ov).hasAlpha = true
    ∧ (∀ x y, (convertRGBA ov).px x y = { ov.px x y with a := 255 })
    ∧ (convertRGBA ov).alphaAll255
    ∧ (∀ (bg : Image) (pos : ℤ × ℤ) (x y : ℕ), ov.valid →
        x < bg.width → y < bg.height → covered (convertRGBA ov) pos x y →
        (overlay_image bg ov pos).px x y
          = { ov.px ((x : ℤ) - pos.1).toNat ((y : ℤ) - pos.2).toNat with a := 255 }) := by
  have hpx : ∀ x y, (convertRGBA ov).px x y = { ov.px x y with a := 255 } := by
    intro x y
    rw [convertRGBA, if_neg (by rw [hna]; exact Bool.false_ne_true)]
  refine ⟨?_, hpx, ?_, ?_⟩
  · rw [convertRGBA, if_neg (by rw [hna]; exact Bool.false_ne_true)]
  · intro x y _ _
    rw [hpx]
  · intro bg pos x y hval hx hy hc
    obtain ⟨h1, h2, h3, h4⟩ := hc
    have hwx : ((x : ℤ) - pos.1).toNat < ov.width := by
      have := convertRGBA_width ov; omega
    have hwy : ((y : ℤ) - pos.2).toNat < ov.height := by
      have := convertRGBA_height ov; omega
    rw [overlay_eq_paste, paste_px_in bg _ pos x y hx hy ⟨h1, h2, h3, h4⟩, hpx]
    refine blendPixel_full _ _ ?_ rfl
    obtain ⟨hr, hg, hb, _⟩ := hval _ _ hwx hwy
    exact ⟨hr, hg, hb, le_refl 255⟩

/-- C7, witnessed on the 1 x 1 RGB overlay pasted onto the 2 x 2 base. -/
theorem c7_rgba_witness :
    (convertRGBA ovRGBW).hasAlpha = true
    ∧ (∀ x y, (convertRGBA ovRGBW).px x y = { ovRGBW.px x y with a := 255 })
    ∧ (convertRGBA ovRGBW).alphaAll255
    ∧ (∀ (bg : Image) (pos : ℤ × ℤ) (x y : ℕ), ovRGBW.valid →
        x < bg.width → y < bg.height → covered (convertRGBA ovRGBW) pos x y →
        (overlay_image bg ovRGBW pos).px x y
          = { ovRGBW.px ((x : ℤ) - pos.1).toNat ((y : ℤ) - pos.2).toNat with a := 255 }) :=
  c7_rgba_normalization ovRGBW rfl

/-- C4: read against the heap, overlay_image never mutates the caller's
base image: it returns a freshly allocated copy (a different address),
the base cell's pixels are identical after the call, mutating the base
cell afterwards does not affect the returned image's cell, and the
returned cell holds exactly the value-level composite. -/
theorem c4_no_mutation (h : Heap) (bgAddr ovAddr : ℕ) (pos : ℤ × ℤ)
    (hbg : bgAddr < h.next) (hov : ovAddr < h.next) :
    (overlayImageOp h bgAddr ovAddr pos).1 ≠ bgAddr
    ∧ (overlayImageOp h bgAddr ovAddr pos).2.mem bgAddr = h.mem bgAddr
    ∧ (∀ img : Image,
        ((overlayImageOp h bgAddr ovAddr pos).2.write bgAddr img).mem
            (overlayImageOp h bgAddr ovAddr pos).1
          = (overlayImageOp h bgAddr ovAddr pos).2.mem (overlayImageOp h bgAddr ovAddr pos).1)
    ∧ (overlayImageOp h bgAddr ovAddr pos).2.mem (overlayImageOp h bgAddr ovAddr pos).1
        = overlay_image (h.mem bgAddr) (h.mem ovAddr) pos := by
  refine ⟨?_, overlayImageOp_mem_old h bgAddr ovAddr pos bgAddr (by omega), ?_, ?_⟩
  · rw [overlayImageOp_fst]; omega
  · intro img
    rw [overlayImageOp_fst, Heap.write]
    exact if_neg (by omega)
  · rw [overlayImageOp_fst]
    exact overlayImageOp_mem_new h bgAddr ovAddr pos (by omega)

/-- C4, witnessed on the two-object heap: the composite call leaves the
base photo at address 0 intact and writes only the fresh cell. -/
theorem c4_no_mutation_witness :
    (overlayImageOp heapW 0 1 (0, 0)).1 ≠ 0
    ∧ (overlayImageOp heapW 0 1 (0, 0)).2.mem 0 = heapW.mem 0
    ∧ (∀ img : Image,
        ((overlayImageOp heapW 0 1 (0, 0)).2.write 0 img).mem (overlayImageOp heapW 0 1 (0, 0)).1
          = (overlayImageOp heapW 0 1 (0, 0)).2.mem (overlayImageOp heapW 0 1 (0, 0)).1)
    ∧ (overlayImageOp heapW 0 1 (0, 0)).2.mem (overlayImageOp heapW 0 1 (0, 0)).1
        = overlay_image (heapW.mem 0) (heapW.mem 1) (0, 0) :=
  c4_no_mutation heapW 0 1 (0, 0) (by norm_num [heapW]) (by norm_num [heapW])

/-- C9: the render is deterministic: the pipeline is a pure function of
its inputs (equal inputs give equal outputs, any resampling kernel
fixed), and running the composite twice in sequence on the same heap
arguments produces the same image both times: the first run's allocation
and write do not influence the second run. -/
theorem c9_deterministic (resample : Resample) (h : Heap) (bgAddr ovAddr : ℕ) (pos : ℤ × ℤ)
    (u1 c1 u2 c2 : Image) (s1 s2 : ℚ) (x1 y1 x2 y2 : ℤ)
    (hu : u1 = u2) (hc : c1 = c2) (hs : s1 = s2) (hx : x1 = x2) (hy : y1 = y2)
    (hbg : bgAddr < h.next) (hov : ovAddr < h.next) :
    final_image resample u1 c1 s1 x1 y1 = final_image resample u2 c2 s2 x2 y2
    ∧ (overlayImageOp (overlayImageOp h bgAddr ovAddr pos).2 bgAddr ovAddr pos).2.mem
        (overlayImageOp (overlayImageOp h bgAddr ovAddr pos).2 bgAddr ovAddr pos).1
      = (overlayImageOp h bgAddr ovAddr pos).2.mem (overlayImageOp h bgAddr ovAddr pos).1 := by
  subst hu hc hs hx hy
  refine ⟨rfl, ?_⟩
  have hnext : (overlayImageOp h bgAddr ovAddr pos).2.next = h.next + 1 :=
    overlayImageOp_next h bgAddr ovAddr pos
  rw [overlayImageOp_fst, overlayImageOp_fst,
    overlayImageOp_mem_new _ bgAddr ovAddr pos (by omega),
    overlayImageOp_mem_new h bgAddr ovAddr pos (by omega),
    overlayImageOp_mem_old h bgAddr ovAddr pos bgAddr (by omega),
    overlayImageOp_mem_old h bgAddr ovAddr pos ovAddr (by omega)]

/-- C9, witnessed on the two-object heap with the 2 x 2 base photo and
the 1 x 1 opaque overlay. -/
theorem c9_deterministic_witness :
    final_image trivResample baseW ovOpaqueW 1 0 0 = final_image trivResample baseW ovOpaqueW 1 0 0
    ∧ (overlayImageOp (overlayImageOp heapW 0 1 (0, 0)).2 0 1 (0, 0)).2.mem
        (overlayImageOp (overlayImageOp heapW 0 1 (0, 0)).2 0 1 (0, 0)).1
      = (overlayImageOp heapW 0 1 (0, 0)).2.mem (overlayImageOp heapW 0 1 (0, 0)).1 :=
  c9_deterministic trivResample heapW 0 1 (0, 0) baseW ovOpaqueW baseW ovOpaqueW 1 1 0 0 0 0
    rfl rfl rfl rfl rfl (by norm_num [heapW]) (by norm_num [heapW])

/-- C6: the paste position is ((W - w) // 2 + offset.x,
(H - h) // 2 + offset.y) for the resized overlay's dimensions w x h
(Python floor division); and in the 400 x 600 base / 200 x 200 opaque
overlay / scale 1 / offset (0, 0) scenario the overlay stays 200 x 200,
lands at (100, 200), the output pixel (150, 250) is the overlay pixel
(50, 50), and the output pixel (10, 10) is the base pixel (10, 10). -/
theorem c6_centred_position (resample : Resample) (user clothing : Image) (scale : ℚ)
    (x_offset y_offset : ℤ) (fB fO : ℕ → ℕ → Pixel) (aB : Bool)
    (ha : (fO 50 50).a = 255) (hv : (fO 50 50).valid) :
    final_image resample user clothing scale x_offset y_offset
      = overlay_image user (resizedClothing resample clothing scale)
          (position_x user.width (resizedClothing resample clothing scale).width x_offset,
           position_y user.height (resizedClothing resample clothing scale).height y_offset)
    ∧ resizedClothing resample (Image.mk 200 200 true fO) 1 = Image.mk 200 200 true fO
    ∧ (final_image resample (Image.mk 400 600 aB fB) (Image.mk 200 200 true fO) 1 0 0).px 150 250
        = fO 50 50
    ∧ (final_image resample (Image.mk 400 600 aB fB) (Image.mk 200 200 true fO) 1 0 0).px 10 10
        = fB 10 10 := by
  have hcw : clothingWidth (Image.mk 200 200 true fO) 1 = 200 := by
    show (pyInt (((200 : ℕ) : ℚ) * 1)).toNat = 200
    rw [show pyInt (((200 : ℕ) : ℚ) * 1) = 200 by norm_num [pyInt]]
    decide
  have hch : clothingHeight (Image.mk 200 200 true fO) 1 = 200 := by
    show (pyInt (((200 : ℕ) : ℚ) * 1)).toNat = 200
    rw [show pyInt (((200 : ℕ) : ℚ) * 1) = 200 by norm_num [pyInt]]
    decide
  have hres : resizedClothing resample (Image.mk 200 200 true fO) 1 = Image.mk 200 200 true fO := by
    rw [resizedClothing, hcw, hch, resize, if_pos ⟨rfl, rfl⟩]
  have hfin : final_image resample (Image.mk 400 600 aB fB) (Image.mk 200 200 true fO) 1 0 0
      = overlay_image (Image.mk 400 600 aB fB) (Image.mk 200 200 true fO) (100, 200) := by
    have hpx : position_x (Image.mk 400 600 aB fB).width 200 0 = 100 := by
      show position_x (400 : ℕ) 200 0 = 100
      decide
    have hpy : position_y (Image.mk 400 600 aB fB).height 200 0 = 200 := by
      show position_y (600 : ℕ) 200 0 = 200
      decide
    rw [final_image, hres, hcw, hch, hpx, hpy]
  refine ⟨?_, hres, ?_, ?_⟩
  · rw [resizedClothing_width, resizedClothing_height]
    rfl
  · rw [hfin, overlay_eq_paste, convertRGBA_of_alpha _ rfl,
      paste_px_in _ _ (100, 200) 150 250 (show (150 : ℕ) < 400 by norm_num)
        (show (250 : ℕ) < 600 by norm_num)
        ⟨show (0 : ℤ) ≤ 150 - 100 by norm_num, show (150 : ℤ) - 100 < 200 by norm_num,
         show (0 : ℤ) ≤ 250 - 200 by norm_num, show (250 : ℤ) - 200 < 200 by norm_num⟩]
    exact blendPixel_full (fO 50 50) (fB 150 250) hv ha
  · rw [hfin, overlay_eq_paste, convertRGBA_of_alpha _ rfl,
      paste_px_out _ _ (100, 200) 10 10 ?_]
    rintro ⟨-, -, hc⟩
    have h1 := hc.1
    norm_num [covered] at h1

/-- C6, witnessed at the constant 400 x 600 base raster and the constant
opaque 200 x 200 overlay raster. -/
theorem c6_centred_witness :
    final_image trivResample baseW ovOpaqueW 1 0 0
      = overlay_image baseW (resizedClothing trivResample ovOpaqueW 1)
          (position_x baseW.width (resizedClothing trivResample ovOpaqueW 1).width 0,
           position_y baseW.height (resizedClothing trivResample ovOpaqueW 1).height 0)
    ∧ resizedClothing trivResample (Image.mk 200 200 true (fun _ _ => pxB)) 1
        = Image.mk 200 200 true (fun _ _ => pxB)
    ∧ (final_image trivResample (Image.mk 400 600 false (fun _ _ => pxA))
        (Image.mk 200 200 true (fun _ _ => pxB)) 1 0 0).px 150 250 = pxB
    ∧ (final_image trivResample (Image.mk 400 600 false (fun _ _ => pxA))
        (Image.mk 200 200 true (fun _ _ => pxB)) 1 0 0).px 10 10 = pxA :=
  c6_centred_position trivResample baseW ovOpaqueW 1 0 0 (fun _ _ => pxA) (fun _ _ => pxB)
    false rfl (by decide : pxB.valid)

/-- C8 counterexample: the claim says every missing OR undecodable input
is reported as a non-fatal message with no image returned and the slot
skipped; but load_image's try/except catches only FileNotFoundError, so
on a path holding undecodable bytes PIL's UnidentifiedImageError escapes
and aborts the render instead of being reported non-fatally. -/
theorem c8_undecodable_counterexample :
    load_image trivFit fsUndecW "images/clothing/shirt.png" none
      = LoadOutcome.exn "UnidentifiedImageError"
    ∧ fittingArea trivResample trivFit fsUndecW "images/user.png" "images/clothing/shirt.png"
        1 0 0 = Except.error "UnidentifiedImageError" :=
  ⟨rfl, rfl⟩

/-- C8 amended: for a MISSING image file (base or clothing slot),
load_image reports a non-fatal st.error message and returns no image,
and the fitting render is skipped with no composite attempted and no
exception, provided the other slot's file is not undecodable (an
undecodable file raises an uncaught exception instead). -/
theorem c8_missing_nonfatal (fit : Image → ℕ × ℕ → Image) (resample : Resample)
    (fs : String → FsEntry) (userPath clothingPath : String) (scale : ℚ)
    (x_offset y_offset : ℤ) :
    (fs userPath = FsEntry.missing →
      load_image fit fs userPath none
        = LoadOutcome.errored ("Error: Image not found at " ++ userPath))
    ∧ (fs userPath = FsEntry.missing → fs clothingPath ≠ FsEntry.undecodable →
        fittingArea resample fit fs userPath clothingPath scale x_offset y_offset
          = Except.ok none)
    ∧ (fs clothingPath = FsEntry.missing → fs userPath ≠ FsEntry.undecodable →
        fittingArea resample fit fs userPath clothingPath scale x_offset y_offset
          = Except.ok none) := by
  refine ⟨?_, ?_, ?_⟩
  · intro hu
    rw [load_image, hu]
  · intro hu hc
    rw [fittingArea, load_image, hu]
    cases hcp : fs clothingPath with
    | missing => rw [load_image, hcp]
    | undecodable => exact absurd hcp hc
    | image img => rw [load_image, hcp]
  · intro hc hu
    cases hup : fs userPath with
    | missing =>
        rw [fittingArea, load_image, hup, load_image, hc]
    | undecodable => exact absurd hup hu
    | image img =>
        rw [fittingArea, load_image, hup, load_image, hc]

/-- C8 amended, witnessed on a file system missing the user photo. -/
theorem c8_missing_witness :
    load_image trivFit fsMissW "u.png" none
      = LoadOutcome.errored ("Error: Image not found at " ++ "u.png")
    ∧ fittingArea trivResample trivFit fsMissW "u.png" "c.png" 1 0 0 = Except.ok none :=
  ⟨(c8_missing_nonfatal trivFit trivResample fsMissW "u.png" "c.png" 1 0 0).1
      (by simp [fsMissW]),
   (c8_missing_nonfatal trivFit trivResample fsMissW "u.png" "c.png" 1 0 0).2.1
      (by simp [fsMissW]) (by simp [fsMissW])⟩

end VirtualFitting
